import Mathlib

/-!
Verification of the windowed deterministic grid engine of the
"World of bits" repository (a Leaflet-based token-crafting game).

The repository carries several revisions of `src/main.ts`.  We embed the
three revisions the claims refer to:

* `MainTs` — the named file `src/src/main.ts` (plain `overrides` map,
  merge result written into the cell, the "place" branch commented out);
* `Rev2` — the full-featured revision of `src/unnamed/part_001`
  (lines 827-1885: `tokenStore` with delete-on-baseline, viewport window,
  memoryless eviction, movement controllers, versioned persistence);
* `Rev3` — the last revision of `src/unnamed/part_001`
  (lines 1885-2602: player-centered window of radius `RENDER_RADIUS/4`).

Positions are embedded as exact rationals, cells as pairs of integers.
The JavaScript `Map` objects keyed by the canonical `"row:col"` string are
embedded as association lists keyed by the `(row, col)` pair itself — the
string encoding is injective on cells, so the keying is the same.
-/

/-- A grid cell identifier: `(row, col)` relative to the classroom origin. -/
abbrev GridCell := ℤ × ℤ

/-- An association list embedding of a JavaScript `Map` from cells to token
values (`tokenStore` / `overrides` in the source). -/
abbrev Store := List (GridCell × ℤ)

/-- Does the map hold an entry for the cell (`Map.has`)? -/
def hasKey (l : Store) (c : GridCell) : Bool :=
  l.any (fun e => decide (e.1 = c))

/-- Value stored for the cell, if any (`Map.get`). -/
def storeGet (l : Store) (c : GridCell) : Option ℤ :=
  (l.find? (fun e => decide (e.1 = c))).map (fun e => e.2)

/-- `Map.set`: replace the entry in place if the key is present, otherwise
append it (JavaScript `Map` insertion-order semantics). -/
def storeSet (l : Store) (c : GridCell) (v : ℤ) : Store :=
  if hasKey l c then l.map (fun e => if e.1 = c then (c, v) else e)
  else l ++ [(c, v)]

/-- `Map.delete`: drop any entry with the given key. -/
def storeDelete (l : Store) (c : GridCell) : Store :=
  l.filter (fun e => decide (¬ e.1 = c))

/-- Deleting every key of a finite set from the map: this is the loop
`for (const kk of stale) tokenStore.delete(kk)` of `syncGridToPlayerWindow`. -/
def evictAll (l : Store) (s : Finset GridCell) : Store :=
  l.filter (fun e => decide (e.1 ∉ s))

-- === Configuration constants shared by the embedded revisions ===

/-- `CLASSROOM.lat` of the later revisions. -/
def classroomLat : ℚ := 36.99785920944698

/-- `CLASSROOM.lng` of the later revisions. -/
def classroomLng : ℚ := -122.05683743811225

/-- `CELL_DEG`: degrees per grid cell. -/
def cellDeg : ℚ := 0.000125

/-- `INTERACT_RANGE`: Chebyshev interaction radius in cells. -/
def interactRange : ℤ := 3

/-- Modelled from the spec: the repository imports `luck` from
`./_luck.ts`, a file that is not under `src/`.  Spec §4.1 describes it as a
stable pseudo-random function hashing a string into `[0,1)`.  We model the
string hash as a deterministic polynomial hash. -/
def strHash (s : String) : ℕ :=
  s.data.foldl (fun a ch => (a * 131 + ch.toNat) % 1000003) 7

/-- Modelled from the spec: `luck` maps a seed string deterministically
into the half-open interval `[0,1)` (here a rational with denominator
1000). -/
def luck (s : String) : ℚ :=
  ((strHash s % 1000 : ℕ) : ℚ) / 1000

/-- Canonical seed string of a cell: `` `cell:${row}:${col}:seed1` ``. -/
def tokenSeed (row col : ℤ) : String :=
  "cell:" ++ toString row ++ ":" ++ toString col ++ ":seed1"

/-- `baseTokenValue`: the deterministic baseline token value of a cell
(identical in every revision). -/
def baseTokenValue (row col : ℤ) : ℤ :=
  let r := luck (tokenSeed row col)
  if r < 0.14 then 2
  else if r < 0.20 then 4
  else if r < 0.22 then 8
  else 0

-- === Grid geometry (identical in every revision) ===

/-- `latLngToCell`: floor-divide the offset from the classroom origin by
the cell size, per axis. -/
def latLngToCell (lat lng : ℚ) : GridCell :=
  (⌊(lat - classroomLat) / cellDeg⌋, ⌊(lng - classroomLng) / cellDeg⌋)

/-- South edge of a cell's bounds. -/
def cellSouth (row : ℤ) : ℚ := classroomLat + row * cellDeg

/-- North edge of a cell's bounds. -/
def cellNorth (row : ℤ) : ℚ := classroomLat + (row + 1) * cellDeg

/-- West edge of a cell's bounds. -/
def cellWest (col : ℤ) : ℚ := classroomLng + col * cellDeg

/-- East edge of a cell's bounds. -/
def cellEast (col : ℤ) : ℚ := classroomLng + (col + 1) * cellDeg

/-- `cellCenterLatLng`: center of `cellBounds(row, col)`.  Leaflet's
`LatLngBounds.getCenter` (an external collaborator) is the midpoint of the
rectangle. -/
def cellCenterLatLng (row col : ℤ) : ℚ × ℚ :=
  ((cellSouth row + cellNorth row) / 2, (cellWest col + cellEast col) / 2)

/-- Chebyshev range test `inRange` against a given anchor cell
(`Math.max(|dr|, |dc|) <= INTERACT_RANGE`). -/
def chebInRange (anchor : GridCell) (row col : ℤ) : Bool :=
  decide (max |row - anchor.1| |col - anchor.2| ≤ interactRange)

/-! ## `MainTs`: the revision in `src/src/main.ts` -/

namespace MainTs

/-- `TARGET = 16` in this revision. -/
def TARGET : ℤ := 16

/-- `originCell`: this revision anchors `inRange` at the classroom cell,
computed once at module load. -/
def originCell : GridCell := latLngToCell classroomLat classroomLng

/-- `inRange` of `src/src/main.ts`: Chebyshev distance to `originCell`. -/
def inRange (row col : ℤ) : Bool := chebInRange originCell row col

/-- The mutable module state this revision's click handler touches:
the `overrides` map and the single-slot `inventory`. -/
structure State where
  overrides : Store
  inventory : Option ℤ
deriving DecidableEq

/-- `getEffectiveValue`: override if present, else the deterministic
baseline. -/
def getEffectiveValue (s : State) (row col : ℤ) : ℤ :=
  match storeGet s.overrides (row, col) with
  | some v => v
  | none => baseTokenValue row col

/-- `setEffectiveValue` of `src/src/main.ts`: stores the value
unconditionally (`overrides.set(k(row, col), value)`), with no
delete-on-baseline pruning. -/
def setEffectiveValue (store : Store) (row col v : ℤ) : Store :=
  storeSet store (row, col) v

/-- `handleCellClick` of `src/src/main.ts`.  Returns the new state and the
number of win alerts raised during the call.  The place-into-empty-cell
branch is commented out in this revision, so a click holding a token on an
empty cell falls through with no effect. -/
def handleCellClick (row col : ℤ) (s : State) : State × ℕ :=
  if inRange row col then
    match s.inventory with
    | none =>
      if 0 < getEffectiveValue s row col then
        ({ overrides := setEffectiveValue s.overrides row col 0,
           inventory := some (getEffectiveValue s row col) }, 0)
      else (s, 0)
    | some held =>
      if getEffectiveValue s row col = held ∧ 0 < held then
        ({ overrides := setEffectiveValue s.overrides row col (held * 2),
           inventory := none },
         if TARGET ≤ held * 2 then 1 else 0)
      else (s, 0)
  else (s, 0)

end MainTs

/-! ## `Rev2`: the full-featured revision of `src/unnamed/part_001`
(lines 827-1885) -/

namespace Rev2

/-- `TARGET = 64` in this revision. -/
def TARGET : ℤ := 64

/-- Merge-result policy flag: result stays in the hand. -/
def MERGE_RESULT_IN_HAND : Bool := true

/-- Memoryless eviction toggle. -/
def MEMORYLESS : Bool := true

/-- `VIEW_RADIUS = INTERACT_RANGE + 5`. -/
def VIEW_RADIUS : ℤ := interactRange + 5

/-- `STORAGE_VERSION = 3`. -/
def STORAGE_VERSION : ℕ := 3

/-- The two movement-source modes. -/
inductive MovementMode
  | buttons
  | geo
deriving DecidableEq

/-- The mutable module state of this revision that the embedded operations
read and write: `tokenStore`, `inventory`, `playerCell`, the registry of
instantiated cell views (`visibleCells`, keyed by cell), and
`currentMovementMode`.  The `CellView` visual objects live in the external
map library; the registry records which cells have one. -/
structure State where
  tokenStore : Store
  inventory : Option ℤ
  playerCell : GridCell
  visibleCells : Finset GridCell
  movementMode : MovementMode
deriving DecidableEq

/-- `Memento`: the snapshot shape `serializeState` produces. -/
structure Memento where
  tokens : Store
  inventory : Option ℤ
  playerCell : GridCell
  movementMode : Option MovementMode
  target : Option ℤ
deriving DecidableEq

/-- `serializeState`: snapshot of the current state. -/
def serializeState (s : State) : Memento :=
  ⟨s.tokenStore, s.inventory, s.playerCell, some s.movementMode, some TARGET⟩

/-- The loop of `restoreFromMemento` that refills the cleared `tokenStore`
entry by entry with `Map.set`. -/
def buildStore (l : Store) : Store :=
  l.foldl (fun acc e => storeSet acc e.1 e.2) []

/-- `restoreFromMemento`: clears and refills the token store, replaces the
inventory and player cell, and adopts the movement mode when present. -/
def restoreFromMemento (m : Memento) (s : State) : State :=
  { s with
    tokenStore := buildStore m.tokens
    inventory := m.inventory
    playerCell := m.playerCell
    movementMode :=
      match m.movementMode with
      | some mm => mm
      | none => s.movementMode }

/-- The versioned envelope written to `localStorage`. -/
structure Payload where
  version : ℕ
  snapshot : Memento

/-- The `localStorage` slot under `STORAGE_KEY`: empty or one envelope. -/
abbrev Storage := Option Payload

/-- Modelled from the spec: `saveState` guards on the character length of
the `JSON.stringify` output; `JSON.stringify` is a platform function
outside the repository.  Each serialized token entry occupies at least 13
characters of JSON text, plus a fixed-size envelope, so we model the
serialized length as affine in the number of override entries. -/
def serializedLength (m : Memento) : ℕ := 120 + 13 * m.tokens.length

/-- `saveState`: serialize, skip the write (leaving the previous storage
content untouched) when the payload exceeds the 200,000-character cap,
otherwise store the versioned envelope. -/
def saveState (st : Storage) (s : State) : Storage :=
  if 200000 < serializedLength (serializeState s) then st
  else some ⟨STORAGE_VERSION, serializeState s⟩

/-- `loadState`: reject an absent envelope or a version mismatch; the
list-shape and player-cell-presence checks of the source are subsumed by
the typed `Memento`. -/
def loadState (st : Storage) : Option Memento :=
  match st with
  | none => none
  | some p => if p.version = STORAGE_VERSION then some p.snapshot else none

/-- `checkWin`: alert exactly when a token is held and its value reaches
the target.  Stateless: no latch records that a win was already shown. -/
def checkWin (inv : Option ℤ) : Bool :=
  match inv with
  | some v => decide (TARGET ≤ v)
  | none => false

/-- `getEffectiveValue`: override from `tokenStore` if present, else the
deterministic baseline. -/
def getEffectiveValue (store : Store) (row col : ℤ) : ℤ :=
  match storeGet store (row, col) with
  | some v => v
  | none => baseTokenValue row col

/-- `setEffectiveValue` of this revision: drop the entry when the value
matches the deterministic baseline, otherwise upsert it. -/
def setEffectiveValue (store : Store) (row col v : ℤ) : Store :=
  if v = baseTokenValue row col then storeDelete store (row, col)
  else storeSet store (row, col) v

/-- Does the sparse store hold an override for the cell? -/
def hasOverride (store : Store) (row col : ℤ) : Bool :=
  hasKey store (row, col)

/-- `inRange` of this revision: Chebyshev distance to the current
`playerCell`. -/
def inRange (player : GridCell) (row col : ℤ) : Bool :=
  chebInRange player row col

/-- Integer row/col bounds of the visible window. -/
structure Window where
  minRow : ℤ
  maxRow : ℤ
  minCol : ℤ
  maxCol : ℤ

/-- The ascending run of a JavaScript `for (let i = lo; i <= hi; i++)`
loop; empty when `hi < lo`. -/
def intRange (lo hi : ℤ) : List ℤ :=
  (List.range (hi + 1 - lo).toNat).map (fun i => lo + (i : ℤ))

/-- Every cell visited by the nested row/col loops of
`syncGridToPlayerWindow`. -/
def windowCells (w : Window) : List GridCell :=
  (intRange w.minRow w.maxRow).flatMap
    (fun r => (intRange w.minCol w.maxCol).map (fun c => (r, c)))

/-- The visited cells as a set. -/
def windowSetF (w : Window) : Finset GridCell :=
  (windowCells w).toFinset

/-- `playerVisibleCellRange` of this revision: viewport corners converted
to cells, then offset by `VIEW_RADIUS` (and an extra 17 columns); the
offsets contract the rectangle. -/
def playerVisibleCellRange (swCell neCell : GridCell) : Window :=
  ⟨swCell.1 + VIEW_RADIUS, neCell.1 - VIEW_RADIUS,
   swCell.2 + VIEW_RADIUS + 17, neCell.2 - VIEW_RADIUS - 17⟩

/-- The view-collaborator calls a sync issues: which cells had a
`CellView` created, and which destroyed. -/
structure SyncEvents where
  created : Finset GridCell
  destroyed : Finset GridCell

/-- `syncGridToPlayerWindow`: visit every cell of the window, creating a
view for cells that lack one; every previously instantiated cell not
visited is stale — its view is destroyed and, under `MEMORYLESS`, its
token-store entry deleted.  (The `saveMemento()` call at the top and the
per-cell `setVisual` refreshes act on external collaborators only.) -/
def sync (w : Window) (s : State) : State × SyncEvents :=
  let wset := windowSetF w
  let stale := s.visibleCells \ wset
  let created := wset \ s.visibleCells
  let visible := (s.visibleCells ∪ wset) \ stale
  let store := if MEMORYLESS then evictAll s.tokenStore stale else s.tokenStore
  ({ s with visibleCells := visible, tokenStore := store }, ⟨created, stale⟩)

/-- `handleCellClick` of this revision: pick up, merge (result in hand
under the configured policy), or place into an empty cell; out-of-range
clicks and rule-violating clicks fall through.  Returns the new state and
the number of win alerts raised. -/
def handleCellClick (row col : ℤ) (s : State) : State × ℕ :=
  if inRange s.playerCell row col then
    match s.inventory with
    | none =>
      if 0 < getEffectiveValue s.tokenStore row col then
        let s' := { s with
          tokenStore := setEffectiveValue s.tokenStore row col 0,
          inventory := some (getEffectiveValue s.tokenStore row col) }
        (s', if checkWin s'.inventory then 1 else 0)
      else (s, 0)
    | some held =>
      if getEffectiveValue s.tokenStore row col = held ∧ 0 < held then
        if MERGE_RESULT_IN_HAND then
          let s' := { s with
            tokenStore := setEffectiveValue s.tokenStore row col 0,
            inventory := some (held * 2) }
          (s', if checkWin s'.inventory then 1 else 0)
        else
          let s' := { s with
            tokenStore := setEffectiveValue s.tokenStore row col (held * 2),
            inventory := none }
          (s', if checkWin s'.inventory then 1 else 0)
      else if getEffectiveValue s.tokenStore row col = 0 then
        ({ s with
           tokenStore := setEffectiveValue s.tokenStore row col held,
           inventory := none }, 0)
      else (s, 0)
  else (s, 0)

/-- `handleMovementPosition`: derive the player's cell from the reported
position, resync the grid (the window itself comes from the external map
viewport, passed here as `w`), refresh visuals, then run the win check.
Returns the new state and the number of win alerts raised. -/
def handleMovementPosition (lat lng : ℚ) (w : Window) (s : State) :
    State × ℕ :=
  let s1 := { s with playerCell := latLngToCell lat lng }
  let s2 := (sync w s1).1
  (s2, if checkWin s2.inventory then 1 else 0)

/-- `ButtonMovementController.stepBy`: add `(dy, dx)` to the current cell
and emit the new cell's center position. -/
def stepBy (dx dy : ℤ) (cell : GridCell) : GridCell × (ℚ × ℚ) :=
  let next := (cell.1 + dy, cell.2 + dx)
  (next, cellCenterLatLng next.1 next.2)

end Rev2

/-! ## `Rev3`: the last revision of `src/unnamed/part_001`
(lines 1885-2602), player-centered window -/

namespace Rev3

/-- Memoryless eviction toggle of this revision. -/
def MEMORYLESS : Bool := true

/-- `RENDER_RADIUS = INTERACT_RANGE + 6`, used as `RENDER_RADIUS / 4`
(JavaScript division, so the window half-width is the fraction 9/4). -/
def renderRadius : ℚ := (interactRange : ℚ) + 6

/-- This revision's loop variables range over non-integer values (the
window bounds are `playerCell ± RENDER_RADIUS/4` and the loop increments
by 1), so its cell keys are rationals. -/
abbrev QCell := ℚ × ℚ

/-- The mutable module state this revision's sync touches. -/
structure State where
  overrides : List (QCell × ℤ)
  inventory : Option ℤ
  playerCell : GridCell
  visibleCells : Finset QCell

/-- The run of a JavaScript `for (let x = lo; x <= hi; x++)` loop over
(possibly fractional) numbers; empty when `hi < lo`. -/
def qRange (lo hi : ℚ) : List ℚ :=
  (List.range (⌊hi - lo⌋ + 1).toNat).map (fun i => lo + (i : ℚ))

/-- `playerVisibleCellRange` of this revision: the player's cell plus or
minus `RENDER_RADIUS / 4` on each axis. -/
def playerVisibleCellRange (p : GridCell) : ℚ × ℚ × ℚ × ℚ :=
  ((p.1 : ℚ) - renderRadius / 4, (p.1 : ℚ) + renderRadius / 4,
   (p.2 : ℚ) - renderRadius / 4, (p.2 : ℚ) + renderRadius / 4)

/-- Every cell visited by the nested loops of this revision's
`syncGridToPlayerWindow`. -/
def windowCells (p : GridCell) : List QCell :=
  let b := playerVisibleCellRange p
  (qRange b.1 b.2.1).flatMap (fun r => (qRange b.2.2.1 b.2.2.2).map (fun c => (r, c)))

/-- `parseInt` truncation toward zero: the stale keys are `"row:col"`
strings that the eviction branch re-parses with `parseInt`, which reads
only the leading integer part of a fractional key. -/
def qTrunc (q : ℚ) : ℚ :=
  ((if q < 0 then -⌊-q⌋ else ⌊q⌋ : ℤ) : ℚ)

/-- `syncGridToPlayerWindow` of this revision: window centered on the
player; stale views are destroyed and, under `MEMORYLESS`, the override
entry at the `parseInt`-truncated stale key is deleted. -/
def sync (s : State) : State × (Finset QCell × Finset QCell) :=
  let wset := (windowCells s.playerCell).toFinset
  let stale := s.visibleCells \ wset
  let created := wset \ s.visibleCells
  let visible := (s.visibleCells ∪ wset) \ stale
  let evictKeys := stale.image (fun c => (qTrunc c.1, qTrunc c.2))
  let ov := if MEMORYLESS
    then s.overrides.filter (fun e => decide (e.1 ∉ evictKeys))
    else s.overrides
  ({ s with visibleCells := visible, overrides := ov }, (created, stale))

end Rev3

/-! ## Concrete scenario data used by witnesses and counterexamples -/

/-- A state holding a 32-token override on the in-range cell (0, 1),
with 32 also in hand: one merge away from the 64 target. -/
def mergeState : Rev2.State :=
  ⟨[((0, 1), 32)], some 32, (0, 0), ∅, Rev2.MovementMode.geo⟩

/-- A window with empty bounds (max below min on both axes). -/
def emptyWindow : Rev2.Window := ⟨0, -1, 0, -1⟩

/-- A state holding 8 in hand over an explicitly emptied in-range cell. -/
def placeState : Rev2.State :=
  ⟨[((0, 1), 0)], some 8, (0, 0), ∅, Rev2.MovementMode.geo⟩

/-- The analogous `src/src/main.ts` state: 2 in hand, cell (0, 0)
explicitly empty. -/
def mainTsPlaceState : MainTs.State := ⟨[((0, 0), 0)], some 2⟩

/-- A small two-override state for the persistence round-trip. -/
def smallState : Rev2.State :=
  ⟨[((0, 0), 32), ((1, 0), 8)], some 2, (1, 1), ∅, Rev2.MovementMode.geo⟩

/-- The snapshot of `smallState` with its override entries in the
opposite order. -/
def permMemento : Rev2.Memento :=
  ⟨[((1, 0), 8), ((0, 0), 32)], some 2, (1, 1),
   some Rev2.MovementMode.geo, some 64⟩

/-- A fresh state to restore into. -/
def blankState : Rev2.State :=
  ⟨[], none, (0, 0), ∅, Rev2.MovementMode.buttons⟩

/-- 20,000 distinct override entries — enough for the serialized snapshot
to blow the 200,000-character save cap. -/
def bigTokenList : Store :=
  (List.range 20000).map (fun i : ℕ => (((i : ℤ), 0), 2))

/-- A game state carrying `bigTokenList` as its override store. -/
def bigState : Rev2.State :=
  ⟨bigTokenList, some 4, (0, 0), ∅, Rev2.MovementMode.geo⟩

/-! ## Association-list map lemmas -/

theorem storeGet_set_self (l : Store) (c : GridCell) (v : ℤ) :
    storeGet (storeSet l c v) c = some v := by
  unfold storeSet
  by_cases h : hasKey l c
  · simp only [h, if_true]
    induction l with
    | nil => simp [hasKey] at h
    | cons e t ih =>
      by_cases hc : e.1 = c
      · simp [storeGet, hc]
      · have ht : hasKey t c = true := by
          simpa [hasKey, hc] using h
        have := ih ht
        simpa [storeGet, hc] using this
  · simp only [h, if_false]
    induction l with
    | nil => simp [storeGet]
    | cons e t ih =>
      have he : ¬ e.1 = c := by
        intro hc
        exact h (by simp [hasKey, hc])
      have ht : ¬ hasKey t c = true := by
        intro hc
        apply h
        simp only [hasKey, List.any_cons, Bool.or_eq_true]
        right
        exact hc
      simpa [storeGet, he] using ih ht

theorem storeGet_delete_self (l : Store) (c : GridCell) :
    storeGet (storeDelete l c) c = none := by
  unfold storeDelete
  induction l with
  | nil => simp [storeGet]
  | cons e t ih =>
    by_cases hc : e.1 = c
    · simpa [List.filter, hc] using ih
    · rw [List.filter_cons_of_pos (by simp [hc])]
      rw [show storeGet (e :: List.filter (fun e => decide (¬ e.1 = c)) t) c
            = storeGet (List.filter (fun e => decide (¬ e.1 = c)) t) c by
        simp [storeGet, List.find?_cons_of_neg, hc]]
      exact ih

theorem storeGet_evictAll_of_mem (l : Store) (s : Finset GridCell)
    (c : GridCell) (h : c ∈ s) : storeGet (evictAll l s) c = none := by
  unfold evictAll
  induction l with
  | nil => simp [storeGet]
  | cons e t ih =>
    by_cases hc : e.1 = c
    · have : ¬ e.1 ∉ s := by simp [hc, h]
      simpa [List.filter, this] using ih
    · by_cases hm : e.1 ∉ s
      · simpa [List.filter, hm, storeGet, hc] using ih
      · simpa [List.filter, hm] using ih

theorem storeGet_evictAll_of_none (l : Store) (s : Finset GridCell)
    (c : GridCell) (h : storeGet l c = none) :
    storeGet (evictAll l s) c = none := by
  unfold evictAll
  induction l with
  | nil => simp [storeGet]
  | cons e t ih =>
    have hc : ¬ e.1 = c := by
      intro hc
      simp [storeGet, hc] at h
    have ht : storeGet t c = none := by
      simpa [storeGet, hc] using h
    by_cases hm : e.1 ∉ s
    · simpa [List.filter, hm, storeGet, hc] using ih ht
    · simpa [List.filter, hm] using ih ht

theorem hasKey_iff_mem (l : Store) (c : GridCell) :
    hasKey l c = true ↔ c ∈ l.map Prod.fst := by
  simp only [hasKey, List.any_eq_true, decide_eq_true_eq, List.mem_map]

theorem storeSet_of_not_mem (l : Store) (c : GridCell) (v : ℤ)
    (h : c ∉ l.map Prod.fst) : storeSet l c v = l ++ [(c, v)] := by
  unfold storeSet
  rw [if_neg]
  intro hk
  exact h ((hasKey_iff_mem l c).mp hk)

theorem storeGet_eq_none_iff (l : Store) (c : GridCell) :
    storeGet l c = none ↔ c ∉ l.map Prod.fst := by
  induction l with
  | nil => simp [storeGet]
  | cons e t ih =>
    by_cases hc : e.1 = c
    · simp [storeGet, List.find?_cons_of_pos, hc]
    · rw [show storeGet (e :: t) c = storeGet t c by
        simp [storeGet, List.find?_cons_of_neg, hc]]
      rw [ih, List.map_cons]
      constructor
      · intro h hm
        rcases List.mem_cons.mp hm with hm | hm
        · exact hc hm.symm
        · exact h hm
      · intro h hm
        exact h (List.mem_cons_of_mem _ hm)

theorem storeGet_eq_some_iff (l : Store) (c : GridCell) (v : ℤ)
    (h : (l.map Prod.fst).Nodup) :
    storeGet l c = some v ↔ (c, v) ∈ l := by
  induction l with
  | nil => simp [storeGet]
  | cons e t ih =>
    have hnd := h
    rw [List.map_cons, List.nodup_cons] at hnd
    by_cases hc : e.1 = c
    · rw [show storeGet (e :: t) c = some e.2 by
        simp [storeGet, List.find?_cons_of_pos, hc]]
      constructor
      · intro hv
        have h2 : e.2 = v := Option.some_inj.mp hv
        have hev : e = (c, v) := by
          cases e
          simp only at hc h2
          rw [hc, h2]
        rw [hev]
        exact List.mem_cons_self _ _
      · intro hv
        rcases List.mem_cons.mp hv with hv | hv
        · rw [← hv]
        · exfalso
          apply hnd.1
          rw [hc]
          exact List.mem_map_of_mem Prod.fst hv
    · rw [show storeGet (e :: t) c = storeGet t c by
        simp [storeGet, List.find?_cons_of_neg, hc]]
      rw [ih hnd.2]
      constructor
      · intro hv
        exact List.mem_cons_of_mem e hv
      · intro hv
        rcases List.mem_cons.mp hv with hv | hv
        · exfalso
          apply hc
          rw [← hv]
        · exact hv

theorem storeGet_perm (l l' : Store) (c : GridCell)
    (h : (l.map Prod.fst).Nodup) (hp : l.Perm l') :
    storeGet l c = storeGet l' c := by
  have h' : (l'.map Prod.fst).Nodup := ((hp.map Prod.fst).nodup_iff).mp h
  cases hg : storeGet l c with
  | none =>
    have := (storeGet_eq_none_iff l c).mp hg
    have : c ∉ l'.map Prod.fst := by
      intro hm
      exact this ((hp.map Prod.fst).mem_iff.mpr hm)
    exact ((storeGet_eq_none_iff l' c).mpr this).symm
  | some v =>
    have := (storeGet_eq_some_iff l c v h).mp hg
    exact ((storeGet_eq_some_iff l' c v h').mpr (hp.mem_iff.mp this)).symm

theorem foldl_storeSet_append (l acc : Store)
    (h : ((acc ++ l).map Prod.fst).Nodup) :
    l.foldl (fun a e => storeSet a e.1 e.2) acc = acc ++ l := by
  induction l generalizing acc with
  | nil => simp
  | cons e t ih =>
    have hsplit := h
    rw [List.map_append, List.nodup_append] at hsplit
    have hno : e.1 ∉ acc.map Prod.fst := by
      intro hmem
      exact hsplit.2.2 hmem (by simp)
    rw [List.foldl_cons, storeSet_of_not_mem _ _ _ hno]
    have h2 : (((acc ++ [(e.1, e.2)]) ++ t).map Prod.fst).Nodup := by
      have : (acc ++ [(e.1, e.2)]) ++ t = acc ++ (e.1, e.2) :: t := by
        simp
      rw [this]
      simpa using h
    rw [ih _ h2]
    simp

theorem buildStore_eq (l : Store) (h : (l.map Prod.fst).Nodup) :
    Rev2.buildStore l = l := by
  unfold Rev2.buildStore
  have := foldl_storeSet_append l [] (by simpa using h)
  simpa using this

/-! ## Window-set lemmas -/

theorem union_sdiff_cancel {α : Type} [DecidableEq α] (v w : Finset α) :
    (v ∪ w) \ (v \ w) = w := by
  ext a
  simp only [Finset.mem_sdiff, Finset.mem_union]
  tauto

theorem rev2_sync_visibleCells (w : Rev2.Window) (s : Rev2.State) :
    (Rev2.sync w s).1.visibleCells = Rev2.windowSetF w := by
  show (s.visibleCells ∪ Rev2.windowSetF w) \ (s.visibleCells \ Rev2.windowSetF w)
      = Rev2.windowSetF w
  exact union_sdiff_cancel _ _

theorem rev2_sync_tokenStore (w : Rev2.Window) (s : Rev2.State) :
    (Rev2.sync w s).1.tokenStore
      = evictAll s.tokenStore (s.visibleCells \ Rev2.windowSetF w) := rfl

theorem rev2_sync_events (w : Rev2.Window) (s : Rev2.State) :
    (Rev2.sync w s).2
      = ⟨Rev2.windowSetF w \ s.visibleCells,
         s.visibleCells \ Rev2.windowSetF w⟩ := rfl

theorem hasKey_eq_false_iff (l : Store) (c : GridCell) :
    hasKey l c = false ↔ storeGet l c = none := by
  rw [storeGet_eq_none_iff, ← hasKey_iff_mem]
  constructor
  · intro h hm
    rw [h] at hm
    simp at hm
  · intro h
    cases hk : hasKey l c with
    | false => rfl
    | true => exact absurd hk h

theorem hasKey_eq_true_iff (l : Store) (c : GridCell) :
    hasKey l c = true ↔ ¬ storeGet l c = none := by
  constructor
  · intro h hn
    rw [← hasKey_eq_false_iff] at hn
    rw [h] at hn
    simp at hn
  · intro h
    cases hk : hasKey l c with
    | false => exact absurd ((hasKey_eq_false_iff l c).mp hk) h
    | true => rfl

/-! ## The deterministic value source -/

theorem luck_nonneg (s : String) : 0 ≤ luck s := by
  unfold luck
  positivity

theorem luck_lt_one (s : String) : luck s < 1 := by
  unfold luck
  rw [div_lt_one (by norm_num)]
  have h : strHash s % 1000 < 1000 := Nat.mod_lt _ (by norm_num)
  calc ((strHash s % 1000 : ℕ) : ℚ) < ((1000 : ℕ) : ℚ) := by
        exact_mod_cast h
    _ = 1000 := by norm_num

/-- The thresholding rule in the spec's words: 2 below 0.14, 4 below 0.20,
8 below 0.22, else 0 (stated over the hash value, to be compared with
`baseTokenValue` as the code computes it). -/
def specThreshold (r : ℚ) : ℤ :=
  if r < 0.14 then 2
  else if r < 0.20 then 4
  else if r < 0.22 then 8
  else 0

/-- Supporting invariant of the `part_001` revision: after
`setEffectiveValue`, an override is present exactly when the written value
differs from the deterministic baseline. -/
theorem rev2_setEffectiveValue_minimal (store : Store) (row col v : ℤ) :
    Rev2.hasOverride (Rev2.setEffectiveValue store row col v) row col
      = decide (¬ v = baseTokenValue row col) := by
  unfold Rev2.setEffectiveValue Rev2.hasOverride
  by_cases hv : v = baseTokenValue row col
  · rw [if_pos hv, decide_eq_false (by simp [hv])]
    rw [hasKey_eq_false_iff]
    exact storeGet_delete_self store (row, col)
  · rw [if_neg hv, decide_eq_true hv]
    rw [hasKey_eq_true_iff]
    rw [storeGet_set_self store (row, col) v]
    simp

theorem intRange_eq_nil (lo hi : ℤ) (h : hi < lo) : Rev2.intRange lo hi = [] := by
  unfold Rev2.intRange
  rw [Int.toNat_of_nonpos (by omega)]
  simp

theorem windowCells_eq_nil (w : Rev2.Window)
    (h : w.maxRow < w.minRow ∨ w.maxCol < w.minCol) :
    Rev2.windowCells w = [] := by
  rcases h with h | h
  · unfold Rev2.windowCells
    rw [intRange_eq_nil _ _ h]
    simp
  · unfold Rev2.windowCells
    rw [intRange_eq_nil _ _ h]
    simp

/-! ## Claims -/

/-- C4 (confirmed): the deterministic value source is a pure function of
the cell id; it hashes the canonical seed string (with the fixed `seed1`
salt) into a value in `[0,1)` and thresholds it at 0.14 / 0.20 / 0.22,
so every value it produces lies in 0, 2, 4, 8.  Determinism is inherent:
`baseTokenValue` is a function of the id alone. -/
theorem claim_C4 (row col : ℤ) :
    0 ≤ luck (tokenSeed row col) ∧ luck (tokenSeed row col) < 1 ∧
    baseTokenValue row col = specThreshold (luck (tokenSeed row col)) ∧
    baseTokenValue row col ∈ ({0, 2, 4, 8} : Finset ℤ) := by
  refine ⟨luck_nonneg _, luck_lt_one _, rfl, ?_⟩
  unfold baseTokenValue
  dsimp only
  split_ifs <;> simp

/-- C4 witness: the theorem applied at the concrete cell (0, 0). -/
theorem claim_C4_witness :
    0 ≤ luck (tokenSeed 0 0) ∧ luck (tokenSeed 0 0) < 1 ∧
    baseTokenValue 0 0 = specThreshold (luck (tokenSeed 0 0)) ∧
    baseTokenValue 0 0 ∈ ({0, 2, 4, 8} : Finset ℤ) :=
  claim_C4 0 0

/-- C1 (code_bug): writing the deterministic baseline back through
`src/src/main.ts`'s `setEffectiveValue` leaves the store holding an
override entry equal to the baseline (the claimed invariant demands it be
absent); the `part_001` revision of `setEffectiveValue` deletes the entry
at the same input, as the claim describes. -/
theorem claim_C1 :
    storeGet (MainTs.setEffectiveValue [] 0 0 (baseTokenValue 0 0)) (0, 0)
        = some (baseTokenValue 0 0) ∧
    hasKey (MainTs.setEffectiveValue [] 0 0 (baseTokenValue 0 0)) (0, 0)
        = true ∧
    Rev2.hasOverride (Rev2.setEffectiveValue [] 0 0 (baseTokenValue 0 0)) 0 0
        = false := by
  refine ⟨storeGet_set_self [] (0, 0) _, rfl, ?_⟩
  rw [rev2_setEffectiveValue_minimal]
  simp

/-- C10 (confirmed): neither windowed revision's sync writes the inventory
slot or the player's cell; the call rewrites only the view registry and
the token store. -/
theorem claim_C10 :
    (∀ (w : Rev2.Window) (s : Rev2.State),
      (Rev2.sync w s).1.inventory = s.inventory ∧
      (Rev2.sync w s).1.playerCell = s.playerCell ∧
      (Rev2.sync w s).1.movementMode = s.movementMode) ∧
    (∀ s3 : Rev3.State,
      (Rev3.sync s3).1.inventory = s3.inventory ∧
      (Rev3.sync s3).1.playerCell = s3.playerCell) :=
  ⟨fun _ _ => ⟨rfl, rfl, rfl⟩, fun _ => ⟨rfl, rfl⟩⟩

/-- C6 (confirmed): sync is idempotent on the view registry — a second
sync against the same window bounds, on the state the first produced,
creates no cell view and destroys none. -/
theorem claim_C6 (w : Rev2.Window) (s : Rev2.State) :
    (Rev2.sync w (Rev2.sync w s).1).2.created = ∅ ∧
    (Rev2.sync w (Rev2.sync w s).1).2.destroyed = ∅ ∧
    (Rev2.sync w (Rev2.sync w s).1).1.visibleCells
      = (Rev2.sync w s).1.visibleCells := by
  refine ⟨?_, ?_, ?_⟩
  · show Rev2.windowSetF w \ (Rev2.sync w s).1.visibleCells = ∅
    rw [rev2_sync_visibleCells]
    exact Finset.sdiff_self _
  · show (Rev2.sync w s).1.visibleCells \ Rev2.windowSetF w = ∅
    rw [rev2_sync_visibleCells]
    exact Finset.sdiff_self _
  · rw [rev2_sync_visibleCells, rev2_sync_visibleCells]

/-- C9 (confirmed): a malformed window (min above max on some axis) makes
the nested loops run zero iterations, so sync destroys every previously
instantiated view and leaves the registry empty; the embedded sync is a
total function, so no error can be raised. -/
theorem claim_C9 (w : Rev2.Window) (s : Rev2.State)
    (h : w.maxRow < w.minRow ∨ w.maxCol < w.minCol) :
    Rev2.windowCells w = [] ∧
    (Rev2.sync w s).2.destroyed = s.visibleCells ∧
    (Rev2.sync w s).1.visibleCells = ∅ := by
  have hw : Rev2.windowSetF w = ∅ := by
    unfold Rev2.windowSetF
    rw [windowCells_eq_nil w h]
    rfl
  refine ⟨windowCells_eq_nil w h, ?_, ?_⟩
  · show s.visibleCells \ Rev2.windowSetF w = s.visibleCells
    rw [hw]
    exact Finset.sdiff_empty
  · rw [rev2_sync_visibleCells, hw]

/-- C9 witness: the theorem applied to a concrete malformed window
(row bounds inverted) and a state with one instantiated view. -/
theorem claim_C9_witness :
    Rev2.windowCells ⟨1, 0, 0, 3⟩ = [] ∧
    (Rev2.sync ⟨1, 0, 0, 3⟩
        ⟨[], none, (0, 0), {(5, 5)}, Rev2.MovementMode.geo⟩).2.destroyed
      = ({(5, 5)} : Finset GridCell) ∧
    (Rev2.sync ⟨1, 0, 0, 3⟩
        ⟨[], none, (0, 0), {(5, 5)}, Rev2.MovementMode.geo⟩).1.visibleCells
      = ∅ :=
  claim_C9 ⟨1, 0, 0, 3⟩ ⟨[], none, (0, 0), {(5, 5)}, Rev2.MovementMode.geo⟩
    (Or.inl (by decide))

/-- C3 (confirmed): a cell holding an override that leaves the visible
window during a memoryless sync has the override deleted by that sync;
every later read of its effective value returns the deterministic
baseline, including after a further sync whose window contains the cell
again (sync only ever deletes store entries, never writes them). -/
theorem claim_C3 (w w2 : Rev2.Window) (s : Rev2.State) (c : GridCell)
    (hvis : c ∈ s.visibleCells) (hout : c ∉ Rev2.windowSetF w)
    (_hre : c ∈ Rev2.windowSetF w2) :
    storeGet (Rev2.sync w s).1.tokenStore c = none ∧
    Rev2.getEffectiveValue (Rev2.sync w s).1.tokenStore c.1 c.2
      = baseTokenValue c.1 c.2 ∧
    Rev2.getEffectiveValue
        (Rev2.sync w2 (Rev2.sync w s).1).1.tokenStore c.1 c.2
      = baseTokenValue c.1 c.2 := by
  have h1 : storeGet (Rev2.sync w s).1.tokenStore c = none := by
    rw [rev2_sync_tokenStore]
    exact storeGet_evictAll_of_mem _ _ _ (Finset.mem_sdiff.mpr ⟨hvis, hout⟩)
  have h2 : storeGet (Rev2.sync w2 (Rev2.sync w s).1).1.tokenStore c = none := by
    rw [rev2_sync_tokenStore]
    exact storeGet_evictAll_of_none _ _ _ h1
  refine ⟨h1, ?_, ?_⟩
  · unfold Rev2.getEffectiveValue
    rw [show ((c.1, c.2) : GridCell) = c from rfl, h1]
  · unfold Rev2.getEffectiveValue
    rw [show ((c.1, c.2) : GridCell) = c from rfl, h2]

/-- C3 witness: a state with an override on the visible cell (5, 5), a
sync whose window is the single cell (0, 0) (so (5, 5) leaves), then a
sync whose window is the single cell (5, 5) (so it re-enters). -/
theorem claim_C3_witness :
    storeGet (Rev2.sync ⟨0, 0, 0, 0⟩
        ⟨[((5, 5), 32)], none, (0, 0), {(5, 5)},
         Rev2.MovementMode.geo⟩).1.tokenStore (5, 5) = none ∧
    Rev2.getEffectiveValue (Rev2.sync ⟨0, 0, 0, 0⟩
        ⟨[((5, 5), 32)], none, (0, 0), {(5, 5)},
         Rev2.MovementMode.geo⟩).1.tokenStore 5 5 = baseTokenValue 5 5 ∧
    Rev2.getEffectiveValue
        (Rev2.sync ⟨5, 5, 5, 5⟩ (Rev2.sync ⟨0, 0, 0, 0⟩
          ⟨[((5, 5), 32)], none, (0, 0), {(5, 5)},
           Rev2.MovementMode.geo⟩).1).1.tokenStore 5 5
      = baseTokenValue 5 5 :=
  claim_C3 ⟨0, 0, 0, 0⟩ ⟨5, 5, 5, 5⟩
    ⟨[((5, 5), 32)], none, (0, 0), {(5, 5)}, Rev2.MovementMode.geo⟩
    (5, 5) (by decide) (by decide) (by decide)

theorem evictAll_empty (l : Store) : evictAll l (∅ : Finset GridCell) = l := by
  unfold evictAll
  induction l with
  | nil => rfl
  | cons e t ih =>
    rw [List.filter_cons_of_pos (by simp)]
    rw [ih]

theorem center_div_eq (a : ℚ) (x : ℤ) :
    ((a + x * cellDeg + (a + (x + 1) * cellDeg)) / 2 - a) / cellDeg
      = (x : ℚ) + 1 / 2 := by
  have hd : cellDeg ≠ 0 := by norm_num [cellDeg]
  field_simp
  ring

theorem floor_int_add_half (x : ℤ) : ⌊(x : ℚ) + 1 / 2⌋ = x := by
  rw [add_comm, Int.floor_add_int]
  norm_num

/-- Round-trip of the grid geometry: the center of a cell's bounds maps
back to the same cell. -/
theorem latLngToCell_cellCenter (row col : ℤ) :
    latLngToCell (cellCenterLatLng row col).1 (cellCenterLatLng row col).2
      = (row, col) := by
  unfold latLngToCell cellCenterLatLng cellSouth cellNorth cellWest cellEast
  dsimp only
  rw [center_div_eq classroomLat row, center_div_eq classroomLng col,
    floor_int_add_half, floor_int_add_half]

/-- After `setEffectiveValue`, reading the same cell back yields exactly
the written value, whether the write stored an override or restored the
baseline by deleting one. -/
theorem rev2_getEff_setEff_self (store : Store) (row col v : ℤ) :
    Rev2.getEffectiveValue (Rev2.setEffectiveValue store row col v) row col
      = v := by
  unfold Rev2.getEffectiveValue Rev2.setEffectiveValue
  by_cases hv : v = baseTokenValue row col
  · rw [if_pos hv, storeGet_delete_self]
    exact hv.symm
  · rw [if_neg hv, storeGet_set_self]

/-- C8 (confirmed): `stepBy(1, 0)` on the manual movement source adds 1 to
the column and leaves the row unchanged, and the emitted position — the
new cell's center — converts back through `latLngToCell` to exactly the
new cell. -/
theorem claim_C8 (cell : GridCell) :
    (Rev2.stepBy 1 0 cell).1.1 = cell.1 ∧
    (Rev2.stepBy 1 0 cell).1.2 = cell.2 + 1 ∧
    latLngToCell (Rev2.stepBy 1 0 cell).2.1 (Rev2.stepBy 1 0 cell).2.2
      = (Rev2.stepBy 1 0 cell).1 := by
  refine ⟨by simp [Rev2.stepBy], rfl, ?_⟩
  show latLngToCell (cellCenterLatLng (cell.1 + 0) (cell.2 + 1)).1
      (cellCenterLatLng (cell.1 + 0) (cell.2 + 1)).2 = (cell.1 + 0, cell.2 + 1)
  exact latLngToCell_cellCenter (cell.1 + 0) (cell.2 + 1)

/-- C2 counterexample: in `src/src/main.ts`, an in-range click holding 2
on a cell whose effective value is 0 changes nothing — the claim demands
that the token be placed (cell becomes 2, hand becomes empty). -/
theorem claim_C2_counterexample :
    MainTs.inRange 0 0 = true ∧
    MainTs.getEffectiveValue mainTsPlaceState 0 0 = 0 ∧
    MainTs.handleCellClick 0 0 mainTsPlaceState = (mainTsPlaceState, 0) ∧
    (MainTs.handleCellClick 0 0 mainTsPlaceState).1.inventory = some 2 := by
  have horig : MainTs.originCell = (0, 0) := by
    unfold MainTs.originCell latLngToCell
    norm_num
  have hin : MainTs.inRange 0 0 = true := by
    unfold MainTs.inRange
    rw [horig]
    decide
  have hclick : MainTs.handleCellClick 0 0 mainTsPlaceState
      = (mainTsPlaceState, 0) := by
    unfold MainTs.handleCellClick
    rw [hin]
    decide
  exact ⟨hin, rfl, hclick, by rw [hclick]; rfl⟩

/-- C2 (corrected): the interaction table holds in full for the movement
revision of `part_001` — pick up, merge (doubled result in hand under the
configured policy, cell cleared), place into an empty cell, and no-ops for
every other in-range click and for out-of-range clicks; in the
`src/src/main.ts` revision the place branch is commented out, so an
in-range click holding a token on an empty cell leaves all state
unchanged. -/
theorem claim_C2 :
    (∀ (s : Rev2.State) (row col : ℤ),
      (Rev2.inRange s.playerCell row col = false →
        Rev2.handleCellClick row col s = (s, 0)) ∧
      (Rev2.inRange s.playerCell row col = true →
        (s.inventory = none → 0 < Rev2.getEffectiveValue s.tokenStore row col →
          (Rev2.handleCellClick row col s).1.inventory
              = some (Rev2.getEffectiveValue s.tokenStore row col) ∧
          Rev2.getEffectiveValue
              (Rev2.handleCellClick row col s).1.tokenStore row col = 0) ∧
        (s.inventory = none → Rev2.getEffectiveValue s.tokenStore row col = 0 →
          Rev2.handleCellClick row col s = (s, 0)) ∧
        (∀ h : ℤ, s.inventory = some h → 0 < h →
          Rev2.getEffectiveValue s.tokenStore row col = h →
          (Rev2.handleCellClick row col s).1.inventory = some (h * 2) ∧
          Rev2.getEffectiveValue
              (Rev2.handleCellClick row col s).1.tokenStore row col = 0) ∧
        (∀ h : ℤ, s.inventory = some h →
          Rev2.getEffectiveValue s.tokenStore row col = 0 →
          Rev2.getEffectiveValue
              (Rev2.handleCellClick row col s).1.tokenStore row col = h ∧
          (Rev2.handleCellClick row col s).1.inventory = none) ∧
        (∀ h : ℤ, s.inventory = some h →
          Rev2.getEffectiveValue s.tokenStore row col ≠ 0 →
          Rev2.getEffectiveValue s.tokenStore row col ≠ h →
          Rev2.handleCellClick row col s = (s, 0)))) ∧
    (∀ (t : MainTs.State) (row col h : ℤ),
      MainTs.inRange row col = true → t.inventory = some h →
      MainTs.getEffectiveValue t row col = 0 →
      MainTs.handleCellClick row col t = (t, 0)) := by
  constructor
  · intro s row col
    constructor
    · intro hout
      unfold Rev2.handleCellClick
      rw [if_neg (show ¬ Rev2.inRange s.playerCell row col = true by
        rw [hout]; simp)]
    · intro hin
      refine ⟨?_, ?_, ?_, ?_, ?_⟩
      · intro hi hv
        unfold Rev2.handleCellClick
        rw [if_pos hin, hi]
        dsimp only
        rw [if_pos hv]
        exact ⟨rfl, rev2_getEff_setEff_self s.tokenStore row col 0⟩
      · intro hi hv
        unfold Rev2.handleCellClick
        rw [if_pos hin, hi]
        dsimp only
        rw [hv, if_neg (show ¬ (0 : ℤ) < 0 by omega)]
      · intro h hi hpos hv
        unfold Rev2.handleCellClick
        rw [if_pos hin, hi]
        dsimp only
        rw [if_pos (And.intro hv hpos),
          if_pos (show Rev2.MERGE_RESULT_IN_HAND = true from rfl)]
        exact ⟨rfl, rev2_getEff_setEff_self s.tokenStore row col 0⟩
      · intro h hi hv
        unfold Rev2.handleCellClick
        rw [if_pos hin, hi]
        dsimp only
        rw [hv]
        rw [if_neg (show ¬ ((0 : ℤ) = h ∧ 0 < h) by
          rintro ⟨h1, h2⟩; omega)]
        rw [if_pos (show (0 : ℤ) = 0 from rfl)]
        exact ⟨rev2_getEff_setEff_self s.tokenStore row col h, rfl⟩
      · intro h hi hv0 hvh
        unfold Rev2.handleCellClick
        rw [if_pos hin, hi]
        dsimp only
        rw [if_neg (show
          ¬ (Rev2.getEffectiveValue s.tokenStore row col = h ∧ 0 < h) by
            rintro ⟨h1, h2⟩; exact hvh h1)]
        rw [if_neg hv0]
  · intro t row col h hin hi hv
    unfold MainTs.handleCellClick
    rw [if_pos hin, hi]
    dsimp only
    rw [hv]
    rw [if_neg (show ¬ ((0 : ℤ) = h ∧ 0 < h) by rintro ⟨h1, h2⟩; omega)]

/-- C2 witness: the amended table applied to the place case — holding 8
over the explicitly emptied in-range cell (0, 1), a click writes 8 into
the cell and empties the hand. -/
theorem claim_C2_witness :
    Rev2.getEffectiveValue
        (Rev2.handleCellClick 0 1 placeState).1.tokenStore 0 1 = 8 ∧
    (Rev2.handleCellClick 0 1 placeState).1.inventory = none := by
  have h := ((claim_C2.1 placeState 0 1).2 (by decide)).2.2.2.1 8 rfl (by decide)
  exact ⟨h.1, h.2⟩

/-- C5 (corrected, amended): the win check is stateless — every position
update runs `checkWin` on the unchanged inventory and signals exactly when
the held value meets the target, whether or not the update performed any
crafting transition.  (So a win is signaled on the qualifying transition
and then re-signaled by each later position update while the winning token
stays in hand.) -/
theorem claim_C5 (lat lng : ℚ) (w : Rev2.Window) (s : Rev2.State) :
    (Rev2.handleMovementPosition lat lng w s).2
      = (if Rev2.checkWin s.inventory then 1 else 0) ∧
    (Rev2.handleMovementPosition lat lng w s).1.inventory = s.inventory :=
  ⟨rfl, rfl⟩

/-- C5 counterexample: merging 32 with 32 in hand reaches the 64 target
and signals the win once; a following position update that changes
neither the inventory nor the token store signals the same win again,
contradicting "never re-signaled by position updates that do not perform
a qualifying transition". -/
theorem claim_C5_counterexample :
    (Rev2.handleCellClick 0 1 mergeState).2 = 1 ∧
    (Rev2.handleCellClick 0 1 mergeState).1.inventory = some 64 ∧
    (Rev2.handleMovementPosition classroomLat classroomLng emptyWindow
        (Rev2.handleCellClick 0 1 mergeState).1).2 = 1 ∧
    (Rev2.handleMovementPosition classroomLat classroomLng emptyWindow
        (Rev2.handleCellClick 0 1 mergeState).1).1.inventory
      = (Rev2.handleCellClick 0 1 mergeState).1.inventory ∧
    (Rev2.handleMovementPosition classroomLat classroomLng emptyWindow
        (Rev2.handleCellClick 0 1 mergeState).1).1.tokenStore
      = (Rev2.handleCellClick 0 1 mergeState).1.tokenStore := by
  refine ⟨rfl, rfl, rfl, rfl, ?_⟩
  have h5 : (Rev2.handleMovementPosition classroomLat classroomLng
        emptyWindow (Rev2.handleCellClick 0 1 mergeState).1).1.tokenStore
      = evictAll (Rev2.handleCellClick 0 1 mergeState).1.tokenStore
          (((Rev2.handleCellClick 0 1 mergeState).1.visibleCells
            \ Rev2.windowSetF emptyWindow : Finset GridCell)) := rfl
  rw [h5]
  rw [show (Rev2.handleCellClick 0 1 mergeState).1.visibleCells
      = (∅ : Finset GridCell) from rfl]
  rw [Finset.empty_sdiff]
  exact evictAll_empty _

/-- C7 (corrected, amended): when the serialized snapshot fits the
200,000-character save cap, save followed by load returns exactly the
serialized snapshot, and restoring any snapshot with the same override
entries in any order reproduces the same effective store, inventory and
player cell; a snapshot that exceeds the cap is skipped by `saveState`, so
load then yields whatever was stored before (or nothing). -/
theorem claim_C7 (s : Rev2.State) (st : Rev2.Storage) (m2 : Rev2.Memento)
    (s0 : Rev2.State)
    (hlen : Rev2.serializedLength (Rev2.serializeState s) ≤ 200000)
    (hnd : (s.tokenStore.map Prod.fst).Nodup)
    (hperm : m2.tokens.Perm s.tokenStore)
    (hinv : m2.inventory = s.inventory)
    (hpc : m2.playerCell = s.playerCell) :
    Rev2.loadState (Rev2.saveState st s) = some (Rev2.serializeState s) ∧
    (∀ c : GridCell,
      storeGet (Rev2.restoreFromMemento m2 s0).tokenStore c
        = storeGet s.tokenStore c) ∧
    (Rev2.restoreFromMemento m2 s0).inventory = s.inventory ∧
    (Rev2.restoreFromMemento m2 s0).playerCell = s.playerCell := by
  refine ⟨?_, ?_, ?_, ?_⟩
  · unfold Rev2.saveState
    rw [if_neg (by omega)]
    rfl
  · intro c
    show storeGet (Rev2.buildStore m2.tokens) c = storeGet s.tokenStore c
    have hnd2 : (m2.tokens.map Prod.fst).Nodup :=
      ((hperm.map Prod.fst).nodup_iff).mpr hnd
    rw [buildStore_eq _ hnd2]
    exact storeGet_perm _ _ _ hnd2 hperm
  · show m2.inventory = s.inventory
    exact hinv
  · show m2.playerCell = s.playerCell
    exact hpc

/-- C7 witness: the round trip applied to `smallState` (two overrides)
against the snapshot `permMemento`, which lists the same overrides in the
opposite order. -/
theorem claim_C7_witness :
    Rev2.loadState (Rev2.saveState none smallState)
      = some (Rev2.serializeState smallState) ∧
    storeGet (Rev2.restoreFromMemento permMemento blankState).tokenStore (0, 0)
      = storeGet smallState.tokenStore (0, 0) ∧
    (Rev2.restoreFromMemento permMemento blankState).inventory
      = smallState.inventory ∧
    (Rev2.restoreFromMemento permMemento blankState).playerCell
      = smallState.playerCell := by
  have h := claim_C7 smallState none permMemento blankState
    (by decide) (by decide) (by decide) rfl rfl
  exact ⟨h.1, h.2.1 (0, 0), h.2.2.1, h.2.2.2⟩

/-- C7 counterexample: a snapshot with 20,000 override entries exceeds the
save cap, so `saveState` skips the write; loading afterwards finds nothing
(here: the initially empty storage), not a state equivalent to the
original, which still carries its 20,000 overrides. -/
theorem claim_C7_counterexample :
    Rev2.loadState (Rev2.saveState none bigState) = none ∧
    bigState.tokenStore.length = 20000 := by
  have hlen : Rev2.serializedLength (Rev2.serializeState bigState) = 260120 := by
    unfold Rev2.serializedLength Rev2.serializeState bigState bigTokenList
    dsimp only
    rw [List.length_map, List.length_range]
  constructor
  · unfold Rev2.saveState
    rw [if_pos (show
        200000 < Rev2.serializedLength (Rev2.serializeState bigState) by
      rw [hlen]; norm_num)]
    rfl
  · unfold bigState bigTokenList
    dsimp only
    rw [List.length_map, List.length_range]
